import Mathlib

/-!
# Book lifecycle of `api/book.go`

A shallow embedding of the book entity of `src/api/book.go`: the record types
`Book`, `Checkout`, `Link`, the validation method `Book.validate`, the two
state transitions `checkout` and `checkin`, and the in-memory store with its
lookup handler `getBook`.

Modelling conventions.

* A Go function that mutates `*Book` and returns `error` becomes a function
  returning the pair `(error, book after the call)`; `none` is Go's `nil` error.
* `time.Now()` is an explicit argument `now`.
* Go's `int` is `Int`: the functions only compare the review with constants.
* Go's `string` is `String`, and `len(name)` is the UTF-8 byte size.
-/

namespace Skills

/-! ## Data model -/

/-- Go's `time.Time`, reduced to the seconds and nanoseconds elapsed since the
zero instant; the zero value of the type is `⟨0, 0⟩`. -/
structure Time where
  sec : Int
  nsec : Nat
deriving DecidableEq

/-- The zero value of `time.Time` (an unset timestamp). -/
def Time.zero : Time := ⟨0, 0⟩

/-- Go's `Time.IsZero`: `t.sec() == 0 && t.nsec() == 0`. -/
def Time.IsZero (t : Time) : Bool := t.sec == 0 && t.nsec == 0

/-- The `Checkout` struct of `book.go` (one history entry). -/
structure Checkout where
  Who : String
  Out : Time
  In : Time
  Review : Int
deriving DecidableEq

/-- The `Link` struct of `book.go`. -/
structure Link where
  Self : String
  Reservations : String
  Reviews : String
deriving DecidableEq

/-- The `Book` struct of `book.go`; `Links` is a pointer in the source, hence
an `Option`. -/
structure Book where
  Id : String
  Title : String
  Author : String
  Synopsis : String
  Links : Option Link
  History : List Checkout
deriving DecidableEq

/-- Modelled from the spec: the sentinel error values that `book.go` returns
(`ErrInvalidBook`, `ErrBookCheckedOut`, `ErrNameMissing`,
`ErrBookNotCheckedOut`, `ErrReviewMissing`). Their declarations are not part
of the sources at hand; section 7 of the specification lists them as pairwise
distinct error kinds (`RequiredFieldMissing`, `BookAlreadyCheckedOut`,
`NameMissing`, `BookNotCheckedOut`, `ReviewMissing`). -/
inductive Err where
  | ErrInvalidBook
  | ErrBookCheckedOut
  | ErrNameMissing
  | ErrBookNotCheckedOut
  | ErrReviewMissing
deriving DecidableEq

/-! ## Operations -/

/-- The method `Book.validate` (`book.go`, lines 22-28). -/
def Book.validate (b : Book) : Option Err :=
  if b.Title = "" ∨ b.Author = "" then
    some Err.ErrInvalidBook
  else
    none

/-- The function `checkout` (`book.go`, lines 83-102). The Boolean `checkedOut`
is the outcome of the first guard block: it is true exactly when that block
returns `ErrBookCheckedOut`. -/
def checkout (now : Time) (b : Book) (name : String) : Option Err × Book :=
  let checkedOut : Bool :=
    if hh : b.History.length ≠ 0 then
      let lastCheckout := b.History.get ⟨b.History.length - 1, by omega⟩
      lastCheckout.In.IsZero
    else
      false
  if checkedOut then
    (some Err.ErrBookCheckedOut, b)
  else if name.utf8ByteSize = 0 then
    (some Err.ErrNameMissing, b)
  else
    (none, { b with History := b.History ++ [{ Who := name, Out := now, In := Time.zero, Review := 0 }] })

/-- The function `checkin` (`book.go`, lines 104-127), guard by guard in the
order of the source: empty history, review range, closed last entry. -/
def checkin (now : Time) (b : Book) (review : Int) : Option Err × Book :=
  if hh : b.History.length = 0 then
    (some Err.ErrBookNotCheckedOut, b)
  else if review < 1 ∨ review > 5 then
    (some Err.ErrReviewMissing, b)
  else
    let lastCheckout := b.History.get ⟨b.History.length - 1, by omega⟩
    if !lastCheckout.In.IsZero then
      (some Err.ErrBookNotCheckedOut, b)
    else
      let closed : Checkout :=
        { Who := lastCheckout.Who, Out := lastCheckout.Out, In := now, Review := review }
      (none, { b with History := b.History.set (b.History.length - 1) closed })

/-! ## Predicates of the specification -/

/-- The book has an open checkout entry: its history is non-empty and the last
entry has the zero `In` timestamp. -/
def hasOpenEntry (b : Book) : Bool :=
  match b.History.getLast? with
  | some c => c.In.IsZero
  | none => false

/-- The open-checkout invariant: every history entry other than the last has a
non-zero `In` timestamp. -/
def openInv (b : Book) : Prop :=
  ∀ c ∈ b.History.dropLast, c.In.IsZero = false

instance (b : Book) : Decidable (openInv b) := by
  unfold openInv
  infer_instance

/-! ## Sample data -/

/-- A non-zero instant, used as the time of a checkout. -/
def sampleOut : Time := ⟨100, 0⟩

/-- A later non-zero instant, used as the time of a check-in. -/
def sampleNow : Time := ⟨200, 5⟩

/-- A history entry that has been checked in. -/
def closedEntry : Checkout := { Who := "Bob", Out := ⟨10, 0⟩, In := ⟨20, 0⟩, Review := 3 }

/-- A history entry that is still open. -/
def openEntry : Checkout := { Who := "Alice", Out := sampleOut, In := Time.zero, Review := 0 }

/-- A freshly created book: no history. -/
def bookNew : Book :=
  { Id := "1", Title := "Dune", Author := "Herbert", Synopsis := "", Links := none, History := [] }

/-- A book that was lent once and returned. -/
def bookReturned : Book := { bookNew with History := [closedEntry] }

/-- A book that was lent and returned, and is now lent to Alice. -/
def bookLent : Book := { bookNew with History := [closedEntry, openEntry] }

/-! ## In-memory store and lookup handler -/

/-- The `Books` struct of `book.go`; the package variable `books` of this type
is the in-memory store. -/
structure Books where
  Count : Int
  Items : List Book
deriving DecidableEq

/-- The function `get` (`book.go`, lines 61-69): the loop stops at the first
item whose `Id` equals `id`; `none` is the nil pointer it returns otherwise. -/
def get (books : Books) (id : String) : Option Book :=
  books.Items.find? (fun l => l.Id == id)

/-- The function `add` (`book.go`, lines 75-81), with the store passed
explicitly; `fmt.Sprint` of an `int` is its decimal notation. -/
def add (books : Books) (b : Book) : Books :=
  let count : Int := books.Items.length
  let newCount : Int := count + 1
  { Count := newCount, Items := books.Items ++ [{ b with Id := toString newCount }] }

/-- The zero value of the package variable `books`. -/
def zeroBooks : Books := { Count := 0, Items := [] }

/-- The store after the package initialiser `init` (`book.go`, lines 50-59). -/
def initBooks : Books :=
  add zeroBooks { Id := "", Title := "default book", Author := "default author", Synopsis := "",
                  Links := none, History := [] }

/-- The stores the program can reach: the zero value followed by calls of
`add`, the only function that assigns to `books`. -/
inductive Reachable : Books → Prop where
  | zero : Reachable zeroBooks
  | add (books : Books) (b : Book) : Reachable books → Reachable (Skills.add books b)

/-- The three ways in which the handler `getBook` answers. The helpers
`bookNotFound` and `marshalFailed` it calls are not part of the sources at
hand, so each constructor records which of them is called and with what. -/
inductive Reply where
  | bookNotFound (id : String)
  | marshalFailed
  | written (body : String)
deriving DecidableEq

/-- The handler `getBook` (`book.go`, lines 169-186). The path variable
`mux.Vars(r)["id"]` is the argument `id`, the store is the argument `books`,
and `json.Marshal` is the argument `marshal` (`none` when it fails). -/
def getBook (marshal : Book → Option String) (books : Books) (id : String) : Reply :=
  match get books id with
  | none => Reply.bookNotFound id
  | some book =>
    match marshal book with
    | none => Reply.marshalFailed
    | some body => Reply.written body

/-- Modelled from the spec: the sentinel errors of package `apierrors` that
`handleError` of `api.go` switches on. Their declarations are not part of the
sources at hand; `other` stands for every other non-nil error. -/
inductive ApiError where
  | ErrBookNotFound
  | ErrReviewNotFound
  | ErrRequiredFieldMissing
  | ErrEmptyRequestBody
  | ErrEmptyBookID
  | ErrEmptyReviewID
  | other (msg : String)
deriving DecidableEq

/-- The HTTP status that `handleError` (`api.go`, lines 86-101) selects for a
non-nil error. -/
def handleErrorStatus : ApiError → Nat
  | ApiError.ErrBookNotFound => 404
  | ApiError.ErrReviewNotFound => 404
  | ApiError.ErrRequiredFieldMissing => 400
  | ApiError.ErrEmptyRequestBody => 400
  | ApiError.ErrEmptyBookID => 400
  | ApiError.ErrEmptyReviewID => 400
  | ApiError.other _ => 500

/-- A store value holding an item without identifier; `add` never builds it. -/
def booksWithBlankId : Books := { Count := 1, Items := [{ bookNew with Id := "" }] }

/-! ## Auxiliary lemmas -/

theorem utf8ByteSize_eq_zero_iff (s : String) : s.utf8ByteSize = 0 ↔ s = "" := by
  constructor
  · intro h
    obtain ⟨cs⟩ := s
    cases cs with
    | nil => rfl
    | cons c cs =>
      exfalso
      have hc := Char.utf8Size_pos c
      simp [String.utf8ByteSize, String.utf8ByteSize.go] at h
      omega
  · rintro rfl
    rfl

theorem Time.isZero_iff (t : Time) : t.IsZero = true ↔ t = Time.zero := by
  obtain ⟨s, n⟩ := t
  simp [Time.IsZero, Time.zero]

/-- The first guard of `checkout` on an empty history. -/
theorem checkout_nil (now : Time) (i t a s : String) (l : Option Link) (name : String) :
    checkout now ⟨i, t, a, s, l, []⟩ name =
      if name.utf8ByteSize = 0 then (some Err.ErrNameMissing, ⟨i, t, a, s, l, []⟩)
      else (none, ⟨i, t, a, s, l, [{ Who := name, Out := now, In := Time.zero, Review := 0 }]⟩) := by
  simp [checkout]

/-- The function `checkout` on a history with last entry `c`. -/
theorem checkout_concat (now : Time) (i t a s : String) (l : Option Link)
    (pre : List Checkout) (c : Checkout) (name : String) :
    checkout now ⟨i, t, a, s, l, pre ++ [c]⟩ name =
      if c.In.IsZero then (some Err.ErrBookCheckedOut, ⟨i, t, a, s, l, pre ++ [c]⟩)
      else if name.utf8ByteSize = 0 then (some Err.ErrNameMissing, ⟨i, t, a, s, l, pre ++ [c]⟩)
      else (none, ⟨i, t, a, s, l,
        pre ++ [c] ++ [{ Who := name, Out := now, In := Time.zero, Review := 0 }]⟩) := by
  simp [checkout]

theorem checkin_nil (now : Time) (i t a s : String) (l : Option Link) (review : Int) :
    checkin now ⟨i, t, a, s, l, []⟩ review = (some Err.ErrBookNotCheckedOut, ⟨i, t, a, s, l, []⟩) := by
  simp [checkin]

/-- The function `checkin` on a history with last entry `c`. -/
theorem checkin_concat (now : Time) (i t a s : String) (l : Option Link)
    (pre : List Checkout) (c : Checkout) (review : Int) :
    checkin now ⟨i, t, a, s, l, pre ++ [c]⟩ review =
      if review < 1 ∨ review > 5 then (some Err.ErrReviewMissing, ⟨i, t, a, s, l, pre ++ [c]⟩)
      else if c.In.IsZero then
        (none, ⟨i, t, a, s, l, pre ++ [{ Who := c.Who, Out := c.Out, In := now, Review := review }]⟩)
      else (some Err.ErrBookNotCheckedOut, ⟨i, t, a, s, l, pre ++ [c]⟩) := by
  simp only [checkin]
  by_cases hr : review < 1 ∨ review > 5
  · simp [hr]
  · by_cases hz : c.In.IsZero = true <;> simp [hr, hz]

theorem hasOpenEntry_nil (i t a s : String) (l : Option Link) :
    hasOpenEntry ⟨i, t, a, s, l, []⟩ = false := by
  simp [hasOpenEntry]

theorem hasOpenEntry_concat (i t a s : String) (l : Option Link) (pre : List Checkout)
    (c : Checkout) : hasOpenEntry ⟨i, t, a, s, l, pre ++ [c]⟩ = c.In.IsZero := by
  simp [hasOpenEntry]

theorem history_cases (b : Book) :
    (∃ i t a s l, b = ⟨i, t, a, s, l, []⟩) ∨ ∃ i t a s l pre c, b = ⟨i, t, a, s, l, pre ++ [c]⟩ := by
  obtain ⟨i, t, a, s, l, hist⟩ := b
  rcases List.eq_nil_or_concat hist with rfl | ⟨pre, c, rfl⟩
  · exact Or.inl ⟨i, t, a, s, l, rfl⟩
  · exact Or.inr ⟨i, t, a, s, l, pre, c, by rw [List.concat_eq_append]⟩

/-! ## Check-in: error order -/

/-- C1 (as stated, refuted): a book whose only history entry is closed has no
open entry, yet `checkin` with the out-of-range review 6 returns
`ErrReviewMissing`, not `ErrBookNotCheckedOut`: the review guard precedes the
closed-entry guard. -/
theorem checkin_review_guard_precedes_closed_guard :
    hasOpenEntry bookReturned = false ∧
      (checkin sampleNow bookReturned 6).1 = some Err.ErrReviewMissing ∧
      (checkin sampleNow bookReturned 6).1 ≠ some Err.ErrBookNotCheckedOut := by
  decide

/-- C1 (amended): for a book without an open entry, `checkin` fails with
`ErrBookNotCheckedOut` when the history is empty (whatever the review) or the
review lies in [1,5]; with a non-empty history and a review outside [1,5] it
fails with `ErrReviewMissing`. In both cases the book is returned as it was. -/
theorem checkin_without_open_entry (now : Time) (b : Book) (review : Int)
    (hno : hasOpenEntry b = false) :
    (b.History = [] ∨ (1 ≤ review ∧ review ≤ 5) →
        checkin now b review = (some Err.ErrBookNotCheckedOut, b)) ∧
      (b.History ≠ [] → review < 1 ∨ 5 < review →
        checkin now b review = (some Err.ErrReviewMissing, b)) := by
  rcases history_cases b with ⟨i, t, a, s, l, rfl⟩ | ⟨i, t, a, s, l, pre, c, rfl⟩
  · simp [checkin_nil]
  · rw [hasOpenEntry_concat] at hno
    rw [checkin_concat]
    constructor
    · rintro (h | ⟨h1, h5⟩)
      · simp at h
      · have hr : ¬ (review < 1 ∨ review > 5) := by omega
        simp [hr, hno]
    · intro _ hr
      have hr2 : review < 1 ∨ review > 5 := by omega
      simp [hr2]

theorem checkin_without_open_entry_witness :
    hasOpenEntry bookReturned = false ∧
      checkin sampleNow bookReturned 4 = (some Err.ErrBookNotCheckedOut, bookReturned) ∧
      checkin sampleNow bookReturned 0 = (some Err.ErrReviewMissing, bookReturned) :=
  ⟨by decide,
    (checkin_without_open_entry sampleNow bookReturned 4 (by decide)).1 (Or.inr (by decide)),
    (checkin_without_open_entry sampleNow bookReturned 0 (by decide)).2 (by decide) (by decide)⟩

/-! ## Checkout: error order and effect -/

/-- C2: `checkout` returns `ErrBookCheckedOut` exactly when the book has an
open entry (also when the name is empty); otherwise it returns
`ErrNameMissing` exactly when the name is empty; otherwise it returns no
error. No other error is ever returned. -/
theorem checkout_error_cases (now : Time) (b : Book) (name : String) :
    ((checkout now b name).1 = some Err.ErrBookCheckedOut ↔ hasOpenEntry b = true) ∧
      ((checkout now b name).1 = some Err.ErrNameMissing ↔ hasOpenEntry b = false ∧ name = "") ∧
      ((checkout now b name).1 = none ↔ hasOpenEntry b = false ∧ name ≠ "") := by
  have hname := utf8ByteSize_eq_zero_iff name
  rcases history_cases b with ⟨i, t, a, s, l, rfl⟩ | ⟨i, t, a, s, l, pre, c, rfl⟩
  · rw [checkout_nil, hasOpenEntry_nil]
    by_cases hn : name = ""
    · rw [if_pos (hname.mpr hn)]
      simp [hn]
    · have hz : ¬ name.utf8ByteSize = 0 := fun h => hn (hname.mp h)
      rw [if_neg hz]
      simp [hn]
  · rw [checkout_concat, hasOpenEntry_concat]
    by_cases ho : c.In.IsZero = true
    · simp [ho]
    · rw [if_neg ho]
      by_cases hn : name = ""
      · rw [if_pos (hname.mpr hn)]
        simp [ho, hn]
      · have hz : ¬ name.utf8ByteSize = 0 := fun h => hn (hname.mp h)
        rw [if_neg hz]
        simp [ho, hn]

/-- C4: on a book without an open entry and with a non-empty borrower name,
`checkout` at time `now` succeeds and yields the same book with exactly one
entry `Checkout{Who: name, Out: now, In: zero, Review: 0}` appended to the
history; the earlier entries and the fields `Id`, `Title`, `Author`,
`Synopsis`, `Links` are those of the input. -/
theorem checkout_appends_entry (now : Time) (b : Book) (name : String)
    (hno : hasOpenEntry b = false) (hname : name ≠ "") :
    checkout now b name =
      (none, { Id := b.Id, Title := b.Title, Author := b.Author, Synopsis := b.Synopsis,
               Links := b.Links,
               History := b.History ++ [{ Who := name, Out := now, In := Time.zero, Review := 0 }] }) := by
  have hz : ¬ name.utf8ByteSize = 0 := fun h => hname ((utf8ByteSize_eq_zero_iff name).mp h)
  rcases history_cases b with ⟨i, t, a, s, l, rfl⟩ | ⟨i, t, a, s, l, pre, c, rfl⟩
  · rw [checkout_nil, if_neg hz]
    rfl
  · rw [hasOpenEntry_concat] at hno
    rw [checkout_concat, if_neg (by simp [hno]), if_neg hz]

theorem checkout_appends_entry_witness :
    hasOpenEntry bookReturned = false ∧ "Alice" ≠ "" ∧
      checkout sampleOut bookReturned "Alice" = (none, bookLent) :=
  ⟨by decide, by decide, checkout_appends_entry sampleOut bookReturned "Alice" (by decide) (by decide)⟩

/-! ## Check-in: effect and review validation -/

/-- C3: on a book whose history ends in an open entry, `checkin` at time `now`
with a review in [1,5] succeeds; the history keeps its length, every entry
but the last is unchanged, the last entry keeps `Who` and `Out` and has
`In = now` and `Review = review`; the other fields of the book are unchanged. -/
theorem checkin_closes_last_entry (now : Time) (b : Book) (review : Int)
    (hopen : hasOpenEntry b = true) (h1 : 1 ≤ review) (h5 : review ≤ 5) :
    (checkin now b review).1 = none ∧
      (checkin now b review).2.History.length = b.History.length ∧
      (∀ k : Nat, k + 1 < b.History.length →
        (checkin now b review).2.History[k]? = b.History[k]?) ∧
      (∃ c, b.History.getLast? = some c ∧
        (checkin now b review).2.History.getLast? =
          some { Who := c.Who, Out := c.Out, In := now, Review := review }) ∧
      { (checkin now b review).2 with History := b.History } = b := by
  have hr : ¬ (review < 1 ∨ review > 5) := by omega
  rcases history_cases b with ⟨i, t, a, s, l, rfl⟩ | ⟨i, t, a, s, l, pre, c, rfl⟩
  · simp [hasOpenEntry_nil] at hopen
  · rw [hasOpenEntry_concat] at hopen
    rw [checkin_concat, if_neg hr, if_pos hopen]
    refine ⟨rfl, by simp, ?_, ⟨c, by simp, by simp⟩, rfl⟩
    intro k hk
    have hk2 : k < pre.length := by simpa using hk
    simp [List.getElem?_append_left hk2]

theorem checkin_closes_last_entry_witness :
    hasOpenEntry bookLent = true ∧
      (checkin sampleNow bookLent 4).1 = none ∧
      (checkin sampleNow bookLent 4).2.History =
        [closedEntry, { Who := "Alice", Out := sampleOut, In := sampleNow, Review := 4 }] :=
  ⟨by decide,
    (checkin_closes_last_entry sampleNow bookLent 4 (by decide) (by decide) (by decide)).1,
    by decide⟩

/-- C5: on a book whose history ends in an open entry, `checkin` with a review
outside [1,5] fails with `ErrReviewMissing` and returns the book (hence its
history) exactly as it was. -/
theorem checkin_rejects_review (now : Time) (b : Book) (review : Int)
    (hopen : hasOpenEntry b = true) (hr : review < 1 ∨ 5 < review) :
    checkin now b review = (some Err.ErrReviewMissing, b) := by
  have hr2 : review < 1 ∨ review > 5 := by omega
  rcases history_cases b with ⟨i, t, a, s, l, rfl⟩ | ⟨i, t, a, s, l, pre, c, rfl⟩
  · simp [hasOpenEntry_nil] at hopen
  · rw [checkin_concat, if_pos hr2]

theorem checkin_rejects_review_witness :
    hasOpenEntry bookLent = true ∧
      checkin sampleNow bookLent 6 = (some Err.ErrReviewMissing, bookLent) ∧
      checkin sampleNow bookLent 0 = (some Err.ErrReviewMissing, bookLent) :=
  ⟨by decide,
    checkin_rejects_review sampleNow bookLent 6 (by decide) (Or.inr (by decide)),
    checkin_rejects_review sampleNow bookLent 0 (by decide) (Or.inl (by decide))⟩

/-! ## Invariant and atomicity -/

/-- C6: the open-checkout invariant (every history entry other than the last
has a non-zero `In` timestamp) holds for a book with empty history, implies
that at most one entry is open, and is preserved by every call of `checkout`
and by every call of `checkin` made at a non-zero current time, whether the
call succeeds or fails. -/
theorem openInv_preserved (now : Time) (b : Book) (name : String) (review : Int) :
    (b.History = [] → openInv b) ∧
      (openInv b → (b.History.filter (fun c => c.In.IsZero)).length ≤ 1) ∧
      (openInv b → openInv (checkout now b name).2) ∧
      (openInv b → now.IsZero = false → openInv (checkin now b review).2) := by
  rcases history_cases b with ⟨i, t, a, s, l, rfl⟩ | ⟨i, t, a, s, l, pre, c, rfl⟩
  · refine ⟨fun _ => by simp [openInv], fun _ => by simp, fun _ => ?_, fun _ _ => ?_⟩
    · rw [checkout_nil]
      split_ifs <;> simp [openInv]
    · rw [checkin_nil]
      simp [openInv]
  · refine ⟨fun h => by simp at h, fun hinv => ?_, fun hinv => ?_, fun hinv hnow => ?_⟩
    · have hpre : pre.filter (fun c => c.In.IsZero) = [] := by
        rw [List.filter_eq_nil_iff]
        intro x hx
        have := hinv x (by simpa using hx)
        simp [this]
      rw [List.filter_append, hpre]
      by_cases hc : c.In.IsZero = true <;> simp [hc]
    · have hpre : ∀ x ∈ pre, x.In.IsZero = false := fun x hx => hinv x (by simpa using hx)
      rw [checkout_concat]
      split_ifs with hc hn
      · exact hinv
      · exact hinv
      · intro x hx
        have hx2 : x ∈ pre ++ [c] := by
          have := @List.dropLast_concat Checkout (pre ++ [c])
            { Who := name, Out := now, In := Time.zero, Review := 0 }
          simpa [this] using hx
        rcases List.mem_append.mp hx2 with h | h
        · exact hpre x h
        · have : x = c := by simpa using h
          subst this
          simpa using hc
    · rw [checkin_concat]
      split_ifs with hr hc
      · exact hinv
      · intro x hx
        exact hinv x (by simpa using hx)
      · exact hinv

theorem openInv_preserved_witness :
    openInv bookNew ∧
      ((bookLent.History.filter (fun c => c.In.IsZero)).length ≤ 1) ∧
      openInv (checkout sampleOut bookReturned "Alice").2 ∧
      openInv (checkin sampleNow bookLent 4).2 :=
  ⟨(openInv_preserved sampleNow bookNew "Alice" 4).1 rfl,
    (openInv_preserved sampleNow bookLent "Alice" 4).2.1 (by decide),
    (openInv_preserved sampleOut bookReturned "Alice" 4).2.2.1 (by decide),
    (openInv_preserved sampleNow bookLent "Alice" 4).2.2.2 (by decide) (by decide)⟩

/-- C7: whenever `checkout` or `checkin` returns an error, the book after the
call (history and every other field) is the book before the call. -/
theorem error_leaves_book_unchanged (now : Time) (b : Book) (name : String) (review : Int) :
    ((checkout now b name).1 ≠ none → (checkout now b name).2 = b) ∧
      ((checkin now b review).1 ≠ none → (checkin now b review).2 = b) := by
  rcases history_cases b with ⟨i, t, a, s, l, rfl⟩ | ⟨i, t, a, s, l, pre, c, rfl⟩
  · rw [checkout_nil, checkin_nil]
    constructor
    · split_ifs <;> simp
    · simp
  · rw [checkout_concat, checkin_concat]
    constructor
    · split_ifs <;> simp
    · split_ifs <;> simp

theorem error_leaves_book_unchanged_witness :
    (checkout sampleNow bookLent "Bob").1 ≠ none ∧
      (checkout sampleNow bookLent "Bob").2 = bookLent ∧
      (checkin sampleNow bookLent 9).1 ≠ none ∧
      (checkin sampleNow bookLent 9).2 = bookLent :=
  ⟨by decide,
    (error_leaves_book_unchanged sampleNow bookLent "Bob" 9).1 (by decide),
    by decide,
    (error_leaves_book_unchanged sampleNow bookLent "Bob" 9).2 (by decide)⟩

/-! ## Sequences of calls -/

/-- C8: after `checkout(book, name)` with a non-empty name, an immediately
following `checkout(book, name2)` fails with `ErrBookCheckedOut`, for every
book, every second name and every pair of call times. -/
theorem checkout_twice_fails (now1 now2 : Time) (b : Book) (name name2 : String)
    (hname : name ≠ "") :
    (checkout now2 (checkout now1 b name).2 name2).1 = some Err.ErrBookCheckedOut := by
  have hz : ¬ name.utf8ByteSize = 0 := fun h => hname ((utf8ByteSize_eq_zero_iff name).mp h)
  have hzero : Time.zero.IsZero = true := rfl
  rcases history_cases b with ⟨i, t, a, s, l, rfl⟩ | ⟨i, t, a, s, l, pre, c, rfl⟩
  · rw [checkout_nil, if_neg hz]
    have := checkout_concat now2 i t a s l [] ⟨name, now1, Time.zero, 0⟩ name2
    simp only [List.nil_append] at this
    rw [this, if_pos hzero]
  · rw [checkout_concat]
    by_cases hc : c.In.IsZero = true
    · rw [if_pos hc]
      show (checkout now2 ⟨i, t, a, s, l, pre ++ [c]⟩ name2).1 = _
      rw [checkout_concat, if_pos hc]
    · rw [if_neg hc, if_neg hz]
      show (checkout now2 ⟨i, t, a, s, l, (pre ++ [c]) ++ [⟨name, now1, Time.zero, 0⟩]⟩ name2).1 = _
      rw [checkout_concat, if_pos hzero]

theorem checkout_twice_fails_witness :
    "Alice" ≠ "" ∧
      (checkout sampleOut bookNew "Alice").1 = none ∧
      (checkout sampleNow (checkout sampleOut bookNew "Alice").2 "Bob").1 =
        some Err.ErrBookCheckedOut :=
  ⟨by decide, by decide, checkout_twice_fails sampleOut sampleNow bookNew "Alice" "Bob" (by decide)⟩

/-- C9: on a book with an open checkout, after `checkin` with a review in
[1,5] has succeeded at a non-zero time `now`, a second `checkin` with the same
review (at any time `now2`) fails with `ErrBookNotCheckedOut` and leaves the
book as the first call left it: the last entry still has `In = now` and
`Review = review`. -/
theorem checkin_twice_fails (now now2 : Time) (b : Book) (review : Int)
    (hopen : hasOpenEntry b = true) (h1 : 1 ≤ review) (h5 : review ≤ 5)
    (hnow : now.IsZero = false) :
    (checkin now b review).1 = none ∧
      checkin now2 (checkin now b review).2 review =
        (some Err.ErrBookNotCheckedOut, (checkin now b review).2) ∧
      ∃ c, (checkin now2 (checkin now b review).2 review).2.History.getLast? = some c ∧
        c.In = now ∧ c.Review = review := by
  have hr : ¬ (review < 1 ∨ review > 5) := by omega
  rcases history_cases b with ⟨i, t, a, s, l, rfl⟩ | ⟨i, t, a, s, l, pre, c, rfl⟩
  · simp [hasOpenEntry_nil] at hopen
  · rw [hasOpenEntry_concat] at hopen
    rw [checkin_concat, if_neg hr, if_pos hopen]
    have h2 : checkin now2 ⟨i, t, a, s, l,
        pre ++ [{ Who := c.Who, Out := c.Out, In := now, Review := review }]⟩ review =
        (some Err.ErrBookNotCheckedOut, ⟨i, t, a, s, l,
          pre ++ [{ Who := c.Who, Out := c.Out, In := now, Review := review }]⟩) := by
      rw [checkin_concat, if_neg hr, if_neg (by simp [hnow])]
    refine ⟨rfl, h2, ?_⟩
    show ∃ c0, (checkin now2 ⟨i, t, a, s, l,
        pre ++ [{ Who := c.Who, Out := c.Out, In := now, Review := review }]⟩ review).2.History.getLast?
          = some c0 ∧ _
    rw [h2]
    exact ⟨{ Who := c.Who, Out := c.Out, In := now, Review := review }, by simp, rfl, rfl⟩

theorem checkin_twice_fails_witness :
    hasOpenEntry bookLent = true ∧ sampleNow.IsZero = false ∧
      (checkin sampleNow bookLent 4).1 = none ∧
      checkin sampleOut (checkin sampleNow bookLent 4).2 4 =
        (some Err.ErrBookNotCheckedOut, (checkin sampleNow bookLent 4).2) :=
  ⟨by decide, by decide,
    (checkin_twice_fails sampleNow sampleOut bookLent 4 (by decide) (by decide) (by decide)
      (by decide)).1,
    (checkin_twice_fails sampleNow sampleOut bookLent 4 (by decide) (by decide) (by decide)
      (by decide)).2.1⟩

/-! ## Validation -/

/-- C10: `validate` fails with `ErrInvalidBook` (the required-field-missing
error) exactly when `Title` is empty or `Author` is empty, returns no error
otherwise, and its result does not depend on `Id`, `Synopsis`, `Links` or
`History`. -/
theorem validate_iff_required_field_missing (b : Book) :
    (b.validate = some Err.ErrInvalidBook ↔ (b.Title = "" ∨ b.Author = "")) ∧
      (b.validate = none ↔ ¬ (b.Title = "" ∨ b.Author = "")) ∧
      ∀ (id syn : String) (links : Option Link) (hist : List Checkout),
        Book.validate { b with Id := id, Synopsis := syn, Links := links, History := hist } =
          b.validate := by
  refine ⟨?_, ?_, fun _ _ _ _ => rfl⟩
  · unfold Book.validate
    split_ifs with h <;> simp [h]
  · unfold Book.validate
    split_ifs with h <;> simp [h]

/-! ## Lookup by identifier -/

theorem toDigitsCore_ne_nil (base fuel n : Nat) (ds : List Char)
    (h : ds ≠ [] ∨ 0 < fuel) : Nat.toDigitsCore base fuel n ds ≠ [] := by
  induction fuel generalizing n ds with
  | zero =>
    rcases h with h | h
    · simpa [Nat.toDigitsCore] using h
    · omega
  | succ k ih =>
    simp only [Nat.toDigitsCore]
    split_ifs
    · simp
    · exact ih _ _ (Or.inl (by simp))

/-- The decimal notation of a positive `int` is not the empty string. -/
theorem toString_succ_ne_empty (k : Nat) : toString ((k : Int) + 1) ≠ "" := by
  have h : ((k : Int) + 1) = Int.ofNat (k + 1) := rfl
  rw [h]
  show (Nat.toDigits 10 (k + 1)).asString ≠ ""
  intro hs
  have hnil : Nat.toDigits 10 (k + 1) = [] := by
    have := congrArg String.data hs
    simpa [List.asString] using this
  exact toDigitsCore_ne_nil 10 (k + 1 + 1) (k + 1) [] (Or.inr (by omega)) hnil

/-- Every item of a reachable store carries a non-empty identifier. -/
theorem reachable_ids_ne_empty (books : Books) (h : Reachable books) :
    ∀ b ∈ books.Items, b.Id ≠ "" := by
  induction h with
  | zero => simp [zeroBooks]
  | add books b _ ih =>
    intro x hx
    simp only [add, List.mem_append, List.mem_singleton] at hx
    rcases hx with hx | rfl
    · exact ih x hx
    · exact toString_succ_ne_empty books.Items.length

/-- On every reachable store the handler `getBook` answers the empty
identifier through `bookNotFound`. -/
theorem getBook_empty_id_reachable (marshal : Book → Option String) (books : Books)
    (h : Reachable books) : getBook marshal books "" = Reply.bookNotFound "" := by
  have hids := reachable_ids_ne_empty books h
  have hget : get books "" = none := by
    simp only [get, List.find?_eq_none]
    intro x hx
    simpa using hids x hx
  simp [getBook, hget]

/-- The status mapping of `handleError` sends `ErrEmptyBookID` to 400 and
`ErrBookNotFound` to 404. -/
theorem handleErrorStatus_empty_id :
    handleErrorStatus ApiError.ErrEmptyBookID = 400 ∧
      handleErrorStatus ApiError.ErrBookNotFound = 404 := by
  decide

/-- C11 (the code diverges): the handler `getBook` of `book.go` has no guard
for the empty identifier. On the store left by the package initialiser it
consults the store and answers through `bookNotFound`, not with an empty-id
error; and its answer follows the store contents, since a store value holding
an item with an empty `Id` makes the same request succeed. -/
theorem getBook_empty_id_is_lookup (marshal : Book → Option String) :
    get initBooks "" = none ∧
      getBook marshal initBooks "" = Reply.bookNotFound "" ∧
      getBook (fun _ => some "body") booksWithBlankId "" = Reply.written "body" ∧
      getBook marshal initBooks "" ≠ getBook (fun _ => some "body") booksWithBlankId "" := by
  have hinit : Reachable initBooks := Reachable.add zeroBooks _ Reachable.zero
  have h1 : getBook marshal initBooks "" = Reply.bookNotFound "" :=
    getBook_empty_id_reachable marshal initBooks hinit
  have h0 : get initBooks "" = none := by
    simp only [get, List.find?_eq_none]
    intro x hx
    simpa using reachable_ids_ne_empty initBooks hinit x hx
  have h2 : getBook (fun _ => some "body") booksWithBlankId "" = Reply.written "body" := by
    simp [getBook, get, booksWithBlankId, bookNew]
  refine ⟨h0, h1, h2, ?_⟩
  rw [h1, h2]
  simp

end Skills
